import Mathlib

/-!
Shallow embedding of the AI playlist-generation pipeline from the
`server/routes/ai.ts` route module of the Spotify-Playlist-AI repository.
JavaScript numbers are modelled as rationals (`ℚ`), JavaScript arrays as
`List`, absent (`undefined`) values as `Option`, and the stable JavaScript
`Array.prototype.sort` as a stable insertion sort. External I/O (the
Spotify and OpenAI calls) is modelled by passing the fetched data, or the
outcome of the call, as an explicit argument.
-/

namespace SP

/-- Per-track audio features returned by the audio-features endpoint
(the fields read by `filterTracksByAIAnalysis`). -/
structure AudioFeatures where
  energy : ℚ
  danceability : ℚ
  acousticness : ℚ
  instrumentalness : ℚ
  valence : ℚ
  tempo : ℚ
  deriving DecidableEq

/-- A candidate track.  `popularity` is optional because the code reads it as
`track.popularity || 0`; `features` is `none` when audio features are
unavailable; `extractedGenres` models `track.extractedGenres`, with a missing
field represented by `[]` (the code computes a genre score of 0 in both
cases, since iterating an empty array adds nothing). -/
structure Track where
  id : String
  name : String
  popularity : Option ℚ
  features : Option AudioFeatures
  extractedGenres : List String
  deriving DecidableEq

/-- `track.popularity || 0` from the source. -/
def popOrZero (t : Track) : ℚ := t.popularity.getD 0

/-- JavaScript `String.prototype.toLowerCase`, for the ASCII strings used by
the pipeline, as a per-character map (kept kernel-reducible). -/
def lowerStr (s : String) : String := ⟨s.data.map Char.toLower⟩

/-- Is `pat` a prefix of `l`? (helper for substring containment). -/
def charsPrefixOf : List Char → List Char → Bool
  | [], _ => true
  | _ :: _, [] => false
  | c :: cs, d :: ds => c = d && charsPrefixOf cs ds

/-- Is `pat` a contiguous substring of `l`? -/
def charsInfixOf : List Char → List Char → Bool
  | pat, [] => pat.isEmpty
  | pat, d :: ds' => charsPrefixOf pat (d :: ds') || charsInfixOf pat ds'

/-- JavaScript `s.includes(pat)` (substring containment). -/
def strIncludes (s pat : String) : Bool := charsInfixOf pat.data s.data

/-- The GPT-4 prompt analysis object (all fields present after
`analyzePlaylistPrompt` merges with its defaults). -/
structure Analysis where
  genres : List String
  moods : List String
  energy_range : ℚ × ℚ
  tempo_range : ℚ × ℚ
  danceability_range : ℚ × ℚ
  acousticness_range : ℚ × ℚ
  instrumentalness_range : ℚ × ℚ
  valence_range : ℚ × ℚ
  description : String
  filter_logic : String
  popularity_level : String
  deriving DecidableEq

/-- Midpoint of a `[min, max]` range, e.g. `(range[0] + range[1]) / 2`. -/
def midpoint (r : ℚ × ℚ) : ℚ := (r.1 + r.2) / 2

/-- Energy dimension score: `10 * (1 - |energy - energyIdeal|)`. -/
def energyScore (a : Analysis) (e : ℚ) : ℚ :=
  10 * (1 - |e - midpoint a.energy_range|)

/-- Tempo dimension score, distance normalized by 200 BPM and capped at 1. -/
def tempoScore (a : Analysis) (tmp : ℚ) : ℚ :=
  10 * (1 - min 1 (|tmp - midpoint a.tempo_range| / 200))

/-- Danceability dimension score. -/
def danceabilityScore (a : Analysis) (d : ℚ) : ℚ :=
  10 * (1 - |d - midpoint a.danceability_range|)

/-- Acousticness dimension score. -/
def acousticnessScore (a : Analysis) (ac : ℚ) : ℚ :=
  10 * (1 - |ac - midpoint a.acousticness_range|)

/-- Valence dimension score. -/
def valenceScore (a : Analysis) (v : ℚ) : ℚ :=
  10 * (1 - |v - midpoint a.valence_range|)

/-- Instrumentalness dimension score. -/
def instrumentalnessScore (a : Analysis) (i : ℚ) : ℚ :=
  10 * (1 - |i - midpoint a.instrumentalness_range|)

/-- The weighted feature-dimension sum of `filterTracksByAIAnalysis`:
the `filter_logic` keyword if/else chain, translated branch by branch. -/
def featureScore (a : Analysis) (f : AudioFeatures) : ℚ :=
  let filterLogic := lowerStr a.filter_logic
  let eS := energyScore a f.energy
  let tS := tempoScore a f.tempo
  let dS := danceabilityScore a f.danceability
  let aS := acousticnessScore a f.acousticness
  let vS := valenceScore a f.valence
  let iS := instrumentalnessScore a f.instrumentalness
  if strIncludes filterLogic "energy" then
    eS * 3 + tS * 1.5 + (dS + vS + aS + iS)
  else if strIncludes filterLogic "tempo" || strIncludes filterLogic "bpm" then
    tS * 3 + eS * 1.5 + (dS + vS + aS + iS)
  else if strIncludes filterLogic "dance" then
    dS * 3 + eS * 1.5 + (tS + vS + aS + iS)
  else if strIncludes filterLogic "acoustic" then
    aS * 3 + vS * 1.5 + (eS + tS + dS + iS)
  else if strIncludes filterLogic "instrument" then
    iS * 3 + aS * 1.5 + (eS + tS + dS + vS)
  else if strIncludes filterLogic "valence" || strIncludes filterLogic "happ" then
    vS * 3 + eS * 1.5 + (tS + dS + aS + iS)
  else
    eS + tS + dS + vS + aS + iS

/-- Exact genre matches: +3 per prompt genre found in the track's
(lower-cased) genre set. -/
def exactGenrePoints (trackGenresLower promptGenresLower : List String) : ℚ :=
  promptGenresLower.foldl
    (fun acc g => if trackGenresLower.contains g then acc + 3 else acc) 0

/-- Partial genre matches: +1.5 per (trackGenre, promptGenre) pair matching
as a substring in either direction. -/
def partialGenrePoints (trackGenres promptGenresLower : List String) : ℚ :=
  trackGenres.foldl
    (fun acc tg =>
      promptGenresLower.foldl
        (fun acc2 pg =>
          if strIncludes (lowerStr tg) pg || strIncludes pg (lowerStr tg) then
            acc2 + 1.5
          else acc2)
        acc)
    0

/-- The genre score block of `filterTracksByAIAnalysis` (0–15 points):
exact matches count 3 each; partial matches (1.5 each) are counted only when
there is no exact match; capped at 15.  Guarded by
`track.extractedGenres && analysis.genres.length > 0` in the source; a
missing `extractedGenres` and an empty one both yield 0, so the guard on
`analysis.genres` is the only one modelled. -/
def genreScore (a : Analysis) (trackGenres : List String) : ℚ :=
  if a.genres.isEmpty then 0
  else
    let promptGenres := a.genres.map lowerStr
    let exact := exactGenrePoints (trackGenres.map lowerStr) promptGenres
    min 15 (if exact = 0 then partialGenrePoints trackGenres promptGenres else exact)

/-- The total score `filterTracksByAIAnalysis` assigns to one track:
feature-dimension sum (0 when features are missing) + `popularity/10` +
genre score + a flat 20 bonus for feature-less tracks with popularity > 70. -/
def trackScore (a : Analysis) (t : Track) : ℚ :=
  (match t.features with
   | some f => featureScore a f
   | none => 0)
  + popOrZero t / 10
  + genreScore a t.extractedGenres
  + (if t.features = none ∧ popOrZero t > 70 then 20 else 0)

/-- Stable descending insertion, the building block of `sortDesc`. -/
def insertDesc {α : Type} (key : α → ℚ) (x : α) : List α → List α
  | [] => [x]
  | y :: ys => if key x < key y then y :: insertDesc key x ys else x :: y :: ys

/-- Stable sort, descending by `key`: the model of the stable JavaScript
`arr.sort((a, b) => key(b) - key(a))`. -/
def sortDesc {α : Type} (key : α → ℚ) : List α → List α
  | [] => []
  | x :: xs => insertDesc key x (sortDesc key xs)

/-- `filterTracksByAIAnalysis(tracks, analysis, maxTracks)`: candidate pool
construction (feature-less tracks, sorted by popularity and capped at
`3 * maxTracks`, are appended when fewer than `2 * maxTracks` tracks carry
features), scoring, stable sort by score descending, truncation to
`maxTracks`.  The returned per-track `score`/`scoreDetails` annotations are
projections of `trackScore` and are not carried in the result list. -/
def filterTracksByAIAnalysis (tracks : List Track) (analysis : Analysis)
    (maxTracks : ℕ) : List Track :=
  let tracksWithAudioFeatures := tracks.filter (fun t => t.features.isSome)
  let candidateTracks :=
    if tracksWithAudioFeatures.length < maxTracks * 2 then
      tracksWithAudioFeatures ++
        ((sortDesc popOrZero (tracks.filter (fun t => t.features.isNone))).take
          (maxTracks * 3))
    else tracksWithAudioFeatures
  (sortDesc (trackScore analysis) candidateTracks).take maxTracks

/-- JavaScript `[...new Set(l)]`: deduplication keeping first occurrences. -/
def jsSetDedup (l : List String) : List String :=
  l.foldl (fun acc x => if acc.contains x then acc else acc ++ [x]) []

/-- The exact (case-insensitive) matches of `matchGenresToAvailableSeeds`:
lower-cased AI genres that occur among the lower-cased available genres. -/
def exactGenreMatches (aiGenres availableGenres : List String) : List String :=
  (aiGenres.map lowerStr).filter (fun g => (availableGenres.map lowerStr).contains g)

/-- The partial (substring, either direction) matches of
`matchGenresToAvailableSeeds`, in AI-genre iteration order. -/
def partialGenreMatches (aiGenres availableGenres : List String) : List String :=
  aiGenres.flatMap (fun aiGenre =>
    availableGenres.filter (fun g =>
      strIncludes (lowerStr g) (lowerStr aiGenre) ||
        strIncludes (lowerStr aiGenre) (lowerStr g)))

/-- `matchGenresToAvailableSeeds(aiGenres, availableGenres)`.  The exact-match
pass maps each lower-cased match back to the original casing through
`indexOf`; the partial pass runs only when there are no exact matches and is
deduplicated (`Set`) and truncated to 5. -/
def matchGenresToAvailableSeeds (aiGenres availableGenres : List String) :
    List String :=
  if aiGenres.isEmpty then []
  else
    let lowerCaseAvailableGenres := availableGenres.map lowerStr
    let exact := exactGenreMatches aiGenres availableGenres
    if ¬ exact.isEmpty then
      exact.map (fun m => availableGenres.getD (lowerCaseAvailableGenres.indexOf m) "")
    else
      (jsSetDedup (partialGenreMatches aiGenres availableGenres)).take 5

/-- Source-selection flags of one generation request. -/
structure PlaylistSources where
  useLikedSongs : Bool
  useTopTracks : Bool
  useRecommendations : Bool
  playlists : List String
  deriving DecidableEq

/-- The four processing modes. -/
inductive ProcessingMode
  | quick
  | standard
  | comprehensive
  | complete
  deriving DecidableEq

/-- Per-mode collection limits (the `ProcessingConfig` interface). -/
structure ProcessingConfig where
  maxTracksPerPlaylist : ℕ
  maxPlaylists : ℕ
  useAudioFeatures : Bool
  fetchAllPages : Bool
  requestDelay : ℕ
  prioritizeByRelevance : Bool
  targetPoolSize : ℕ
  deriving DecidableEq

/-- The `PROCESSING_CONFIGS` table. -/
def PROCESSING_CONFIGS : ProcessingMode → ProcessingConfig
  | .quick =>
    { maxTracksPerPlaylist := 30, maxPlaylists := 5, useAudioFeatures := true,
      fetchAllPages := false, requestDelay := 50, prioritizeByRelevance := true,
      targetPoolSize := 200 }
  | .standard =>
    { maxTracksPerPlaylist := 50, maxPlaylists := 10, useAudioFeatures := true,
      fetchAllPages := false, requestDelay := 100, prioritizeByRelevance := true,
      targetPoolSize := 500 }
  | .comprehensive =>
    { maxTracksPerPlaylist := 100, maxPlaylists := 20, useAudioFeatures := true,
      fetchAllPages := true, requestDelay := 150, prioritizeByRelevance := true,
      targetPoolSize := 1000 }
  | .complete =>
    { maxTracksPerPlaylist := 0, maxPlaylists := 50, useAudioFeatures := true,
      fetchAllPages := true, requestDelay := 200, prioritizeByRelevance := false,
      targetPoolSize := 5000 }

/-- Warning level of a time estimate. -/
inductive WarningLevel
  | low
  | medium
  | high
  deriving DecidableEq

/-- Result record of `estimateProcessingTime`. -/
structure TimeEstimate where
  estimatedSeconds : ℤ
  warningLevel : WarningLevel
  deriving DecidableEq

/-- `playlistSizes[playlistId] || 50`: a missing entry and a zero entry both
fall back to the default assumption of 50 tracks. -/
def playlistSizeOrDefault (playlistSizes : String → Option ℕ) (playlistId : String) : ℕ :=
  match playlistSizes playlistId with
  | some n => if n = 0 then 50 else n
  | none => 50

/-- Tracks charged for one playlist: the playlist size, capped at
`maxTracksPerPlaylist` unless that is 0 (unlimited). -/
def tracksToProcess (config : ProcessingConfig) (sz : ℕ) : ℕ :=
  if config.maxTracksPerPlaylist = 0 then sz else min sz config.maxTracksPerPlaylist

/-- The `totalEstimatedTracks` accumulation of `estimateProcessingTime`. -/
def totalEstimatedTracks (config : ProcessingConfig)
    (playlistSizes : String → Option ℕ) (playlists : List String) : ℕ :=
  playlists.foldl
    (fun acc pid => acc + tracksToProcess config (playlistSizeOrDefault playlistSizes pid))
    0

/-- The `playlistTime` term of `estimateProcessingTime`: 0 for an empty
selection, otherwise 0.05s per estimated track plus, when `fetchAllPages`,
2s per 100 estimated tracks. -/
def playlistTimePart (config : ProcessingConfig)
    (playlistSizes : String → Option ℕ) (playlists : List String) : ℚ :=
  if ¬ playlists.isEmpty then
    (if config.fetchAllPages then
        ((totalEstimatedTracks config playlistSizes playlists : ℕ) : ℚ) / 100 * 2
      else 0) +
      ((totalEstimatedTracks config playlistSizes playlists : ℕ) : ℚ) * 0.05
  else 0

/-- The rational sum computed by `estimateProcessingTime` before `Math.ceil`:
base 5s, per-source fixed costs, per-playlist track costs (0.05s per track,
plus pagination 2s per 100 tracks when `fetchAllPages`), and the
audio-features cost (0.02s per pooled track, pool capped at 500). -/
def estimateSum (sources : PlaylistSources) (mode : ProcessingMode)
    (playlistSizes : String → Option ℕ) : ℚ :=
  let config := PROCESSING_CONFIGS mode
  let baseTime : ℚ := 5
  let likedSongsTime : ℚ := if sources.useLikedSongs then 5 else 0
  let topTracksTime : ℚ := if sources.useTopTracks then 3 else 0
  let recommendationsTime : ℚ := if sources.useRecommendations then 5 else 0
  let playlistTime : ℚ := playlistTimePart config playlistSizes sources.playlists
  let audioFeaturesTime : ℚ :=
    if config.useAudioFeatures then ((min config.targetPoolSize 500 : ℕ) : ℚ) * 0.02
    else 0
  baseTime + likedSongsTime + topTracksTime + recommendationsTime + playlistTime +
    audioFeaturesTime

/-- `estimateProcessingTime(sources, processingMode, playlistSizes)`:
`Math.ceil` of the sum, and the `low`/`medium`/`high` classification
(`> 60` raises to medium, `> 180` to high, both tested on the un-ceiled sum). -/
def estimateProcessingTime (sources : PlaylistSources) (mode : ProcessingMode)
    (playlistSizes : String → Option ℕ) : TimeEstimate :=
  let estimatedSeconds := estimateSum sources mode playlistSizes
  { estimatedSeconds := ⌈estimatedSeconds⌉,
    warningLevel :=
      if estimatedSeconds > 180 then .high
      else if estimatedSeconds > 60 then .medium
      else .low }

/-- Modelled from the claim text of C5 (spec §4.1): per-playlist charge
`min(knownSize or 50, maxTracksPerPlaylist-or-size)`. -/
def specPlaylistTrackCount (config : ProcessingConfig)
    (playlistSizes : String → Option ℕ) (pid : String) : ℕ :=
  min (playlistSizeOrDefault playlistSizes pid)
    (if config.maxTracksPerPlaylist = 0 then playlistSizeOrDefault playlistSizes pid
     else config.maxTracksPerPlaylist)

/-- Modelled from the claim text of C5 (spec §4.1): the closed-form sum
`5 + 5?liked + 3?top + 5?rec + Σ count*0.05 + pagination + features`. -/
def specEstimateSum (sources : PlaylistSources) (mode : ProcessingMode)
    (playlistSizes : String → Option ℕ) : ℚ :=
  let config := PROCESSING_CONFIGS mode
  let total : ℕ :=
    (sources.playlists.map (specPlaylistTrackCount config playlistSizes)).sum
  5 + (if sources.useLikedSongs then 5 else 0) +
    (if sources.useTopTracks then 3 else 0) +
    (if sources.useRecommendations then 5 else 0) +
    (total : ℚ) * 0.05 +
    (if config.fetchAllPages then (total : ℚ) / 100 * 2 else 0) +
    (if config.useAudioFeatures then ((min config.targetPoolSize 500 : ℕ) : ℚ) * 0.02
     else 0)

/-- Modelled from the claim text of C5 (spec §4.1): `ceil` of the closed-form
sum, with warning level `low` for sums ≤ 60, `medium` for ≤ 180, `high`
otherwise.  This is the spec-side definition compared against
`estimateProcessingTime`. -/
def specEstimate (sources : PlaylistSources) (mode : ProcessingMode)
    (playlistSizes : String → Option ℕ) : TimeEstimate :=
  let s : ℚ := specEstimateSum sources mode playlistSizes
  { estimatedSeconds := ⌈s⌉,
    warningLevel :=
      if s ≤ 60 then .low
      else if s ≤ 180 then .medium
      else .high }

/-- One `set` step of `new Map(...)`: replace the value of an existing key in
place, otherwise append the new entry at the end. -/
def jsMapDedupInsert (m : List (String × Track)) (t : Track) : List (String × Track) :=
  match m with
  | [] => [(t.id, t)]
  | (k, v) :: rest =>
    if k = t.id then (k, t) :: rest else (k, v) :: jsMapDedupInsert rest t

/-- `Array.from(new Map(tracks.map(t => [t.id, t])).values())`: one entry per
id, in first-occurrence order, holding the last-inserted value for that id. -/
def dedupById (l : List Track) : List Track :=
  (l.foldl jsMapDedupInsert []).map Prod.snd

/-- The last track with id `k` in `l` (the value a JavaScript `Map` retains
for a duplicated key). -/
def lastMatch? : List Track → String → Option Track
  | [], _ => none
  | t :: ts, k =>
    match lastMatch? ts k with
    | some u => some u
    | none => if t.id = k then some t else none

/-- The `allTracks` accumulation of `collectTracks`, with the external
fetchers abstracted by the lists they returned: liked songs (step 1), top
tracks (step 2, deduplicated inside `fetchTopTracks`), and the concatenation
of the selected playlists' fetched tracks (step 3, deduplicated inside
`fetchSelectedPlaylistTracks`). -/
def mergedSourceTracks (sources : PlaylistSources) (likedSongs topTracks : List Track)
    (playlistTracks : List (List Track)) : List Track :=
  (if sources.useLikedSongs then likedSongs else []) ++
    (if sources.useTopTracks then dedupById topTracks else []) ++
    (if ¬ sources.playlists.isEmpty then dedupById playlistTracks.flatten else [])

/-- `collectTracks` steps 4–5: cross-source deduplication by id followed by
the `targetPoolSize` cap (applied only when the config's pool size is
positive and exceeded).  The progress callback only reports progress and does
not affect the returned pool, so it is not modelled. -/
def collectTracks (sources : PlaylistSources) (mode : ProcessingMode)
    (likedSongs topTracks : List Track) (playlistTracks : List (List Track)) :
    List Track :=
  let config := PROCESSING_CONFIGS mode
  let uniqueTracks := dedupById (mergedSourceTracks sources likedSongs topTracks playlistTracks)
  if 0 < config.targetPoolSize ∧ config.targetPoolSize < uniqueTracks.length then
    uniqueTracks.take config.targetPoolSize
  else uniqueTracks

/-- The raw JSON object parsed from the GPT-4 completion: any field may be
missing. -/
structure PartialAnalysis where
  genres : Option (List String)
  moods : Option (List String)
  energy_range : Option (ℚ × ℚ)
  tempo_range : Option (ℚ × ℚ)
  danceability_range : Option (ℚ × ℚ)
  acousticness_range : Option (ℚ × ℚ)
  instrumentalness_range : Option (ℚ × ℚ)
  valence_range : Option (ℚ × ℚ)
  description : Option String
  filter_logic : Option String
  popularity_level : Option String
  deriving DecidableEq

/-- The `defaultAnalysis` object of `analyzePlaylistPrompt` (also the value
returned from its catch block). -/
def defaultAnalysis : Analysis :=
  { genres := []
    moods := ["general"]
    energy_range := (0, 1)
    tempo_range := (0, 300)
    danceability_range := (0, 1)
    acousticness_range := (0, 1)
    instrumentalness_range := (0, 1)
    valence_range := (0, 1)
    description := "General playlist based on popular tracks"
    filter_logic := "Sort by popularity as fallback"
    popularity_level := "medium" }

/-- JavaScript `s.substring(0, n)` for basic-plane strings. -/
def jsSubstring (s : String) (n : ℕ) : String := ⟨s.data.take n⟩

/-- The description guard: over 100 characters is cut to 97 plus `"..."`. -/
def truncateDescription (d : String) : String :=
  if d.length > 100 then jsSubstring d 97 ++ "..." else d

/-- `analyzePlaylistPrompt`, with the LLM call abstracted by its outcome: an
exception (network error, `JSON.parse` failure) or the parsed object.  On
failure the fixed default analysis is returned; on success the description is
truncated and every missing field is backfilled from the defaults
(`{...defaultAnalysis, ...analysis}`). -/
def analyzePlaylistPrompt (llmResult : Except String PartialAnalysis) : Analysis :=
  match llmResult with
  | .error _ => defaultAnalysis
  | .ok raw =>
    let analysis := { raw with description := raw.description.map truncateDescription }
    { genres := analysis.genres.getD defaultAnalysis.genres
      moods := analysis.moods.getD defaultAnalysis.moods
      energy_range := analysis.energy_range.getD defaultAnalysis.energy_range
      tempo_range := analysis.tempo_range.getD defaultAnalysis.tempo_range
      danceability_range := analysis.danceability_range.getD defaultAnalysis.danceability_range
      acousticness_range := analysis.acousticness_range.getD defaultAnalysis.acousticness_range
      instrumentalness_range := analysis.instrumentalness_range.getD defaultAnalysis.instrumentalness_range
      valence_range := analysis.valence_range.getD defaultAnalysis.valence_range
      description := analysis.description.getD defaultAnalysis.description
      filter_logic := analysis.filter_logic.getD defaultAnalysis.filter_logic
      popularity_level := analysis.popularity_level.getD defaultAnalysis.popularity_level }

/-- One entry of `playlistProgressMap`. -/
structure StoredProgress where
  stage : String
  progress : ℚ
  message : String
  remainingTimeEstimate : ℚ
  processingMode : String
  startTime : ℚ
  deriving DecidableEq

/-- `getEstimatedTimeForMode`: the per-mode total estimate, 60 by default. -/
def getEstimatedTimeForMode (mode : String) : ℚ :=
  if mode = "quick" then 30
  else if mode = "standard" then 60
  else if mode = "comprehensive" then 120
  else if mode = "complete" then 300
  else 60

/-- The progress object returned by the progress endpoint. -/
structure ProgressView where
  stage : String
  progress : ℚ
  message : String
  remainingTimeEstimate : ℚ
  deriving DecidableEq

/-- The progress GET endpoint body, as a pure function of the progress map
(an association list with the `Map`'s unique-key invariant), the queried
playlist id and the current wall-clock time in milliseconds.  An unknown key
yields the synthetic initializing default; a known key recomputes the
remaining-time estimate from the elapsed time, floored at 80% of the mode
total while recorded progress is below 20. -/
def readProgress (store : List (String × StoredProgress)) (playlistId : String)
    (now : ℚ) : ProgressView :=
  match (store.find? (fun p => p.1 == playlistId)).map Prod.snd with
  | none =>
    { stage := "initializing"
      progress := 5
      message := "Initializing playlist generation..."
      remainingTimeEstimate := 60 }
  | some p =>
    let elapsedSeconds := (now - p.startTime) / 1000
    let totalEstimate := getEstimatedTimeForMode p.processingMode
    let remaining0 := max 0 (totalEstimate - elapsedSeconds)
    let remaining :=
      if p.progress < 20 then max remaining0 (totalEstimate * 0.8) else remaining0
    { stage := p.stage
      progress := p.progress
      message := p.message
      remainingTimeEstimate := remaining }

/-- Outcome of one `fetch` call: a thrown rejection (network error) or a
response object. -/
inductive FetchOutcome (α : Type)
  | thrown
  | resp (r : α)
  deriving DecidableEq

/-- The add-tracks response as the route consumes it: its `ok` flag, and
whether `response.json()` on the error body succeeds. -/
structure AddTracksResponse where
  ok : Bool
  errorBodyParses : Bool
  deriving DecidableEq

/-- The observable outcome of the generate-playlist route. -/
structure RouteResult where
  status : ℕ
  playlistId : String
  trackIds : List String
  deriving DecidableEq

/-- Steps 7–9 of the generate-playlist route, entered after the playlist
shell has been created: append the selected tracks when there are any (a
non-ok response is only logged, via `await addTracksResponse.json()`; a
thrown fetch or a non-parsing error body propagates to the route's outer
catch, which answers 500), swallow any database-save failure, and answer 201
with the created playlist.  `dbSaveOk` is unused because the save is wrapped
in its own try/catch. -/
def finalizeGeneration (playlistId : String) (selectedTracks : List Track)
    (addTracksResult : FetchOutcome AddTracksResponse) (_dbSaveOk : Bool) :
    RouteResult :=
  let step7ok : Bool :=
    if selectedTracks.isEmpty then true
    else
      match addTracksResult with
      | .thrown => false
      | .resp r => if r.ok then true else r.errorBodyParses
  if step7ok then
    { status := 201, playlistId := playlistId,
      trackIds := selectedTracks.map (fun t => t.id) }
  else
    { status := 500, playlistId := "", trackIds := [] }

/-- The six per-dimension weights applied by the scorer. -/
structure EmphasisWeights where
  energy : ℚ
  tempo : ℚ
  dance : ℚ
  acoustic : ℚ
  instrumental : ℚ
  valence : ℚ
  deriving DecidableEq

/-- Modelled from the claim text of C3 (spec §4.6): the emphasis keyword is
chosen from `filter_logic` in the priority order energy, tempo/bpm, dance,
acoustic, instrument, valence/happ (first match wins); the emphasized
dimension is weighted ×3, its designated secondary ×1.5 (energy↔tempo are
mutual secondaries, danceability's secondary is energy, acoustic's is
valence, instrumentalness's is acoustic, valence's is energy), all others ×1;
no match means all six ×1.  This is the spec-side weight table compared
against the scorer's if/else chain. -/
def specEmphasisWeights (filterLogic : String) : EmphasisWeights :=
  let s := lowerStr filterLogic
  if strIncludes s "energy" then
    { energy := 3, tempo := 1.5, dance := 1, acoustic := 1, instrumental := 1, valence := 1 }
  else if strIncludes s "tempo" || strIncludes s "bpm" then
    { energy := 1.5, tempo := 3, dance := 1, acoustic := 1, instrumental := 1, valence := 1 }
  else if strIncludes s "dance" then
    { energy := 1.5, tempo := 1, dance := 3, acoustic := 1, instrumental := 1, valence := 1 }
  else if strIncludes s "acoustic" then
    { energy := 1, tempo := 1, dance := 1, acoustic := 3, instrumental := 1, valence := 1.5 }
  else if strIncludes s "instrument" then
    { energy := 1, tempo := 1, dance := 1, acoustic := 1.5, instrumental := 3, valence := 1 }
  else if strIncludes s "valence" || strIncludes s "happ" then
    { energy := 1.5, tempo := 1, dance := 1, acoustic := 1, instrumental := 1, valence := 3 }
  else
    { energy := 1, tempo := 1, dance := 1, acoustic := 1, instrumental := 1, valence := 1 }

/-- First-matching-key lookup on the association-list model of a JavaScript
`Map` (its value for a key). -/
def lookupK (m : List (String × Track)) (k : String) : Option Track :=
  (m.find? (fun p => p.1 == k)).map Prod.snd

/-! Concrete sample data used to instantiate the theorems below. -/

/-- A feature-less track with no genre information. -/
def sampleTrack : Track :=
  { id := "t1", name := "T1", popularity := some 50, features := none,
    extractedGenres := [] }

/-- A feature-less track, popularity 60, no genres. -/
def trackNoGenre : Track :=
  { id := "b", name := "B", popularity := some 60, features := none,
    extractedGenres := [] }

/-- A feature-less track, popularity 50, tagged with the genre rock. -/
def trackRock : Track :=
  { id := "a", name := "A", popularity := some 50, features := none,
    extractedGenres := ["rock"] }

/-- An analysis whose genre list is `["rock"]`. -/
def rockAnalysis : Analysis :=
  { defaultAnalysis with genres := ["rock"] }

/-- An analysis emphasising energy, with target energy midpoint 0.6. -/
def energyAnalysis : Analysis :=
  { defaultAnalysis with
      filter_logic := "prioritize high energy"
      energy_range := (0.4, 0.8) }

/-- Audio features with energy exactly on the 0.6 midpoint. -/
def featuresOnTarget : AudioFeatures :=
  { energy := 0.6, danceability := 0.5, acousticness := 0.5,
    instrumentalness := 0.5, valence := 0.5, tempo := 120 }

/-- The same audio features but with energy far from the 0.6 midpoint. -/
def featuresOffTarget : AudioFeatures :=
  { featuresOnTarget with energy := 0.1 }

/-- A track carrying `featuresOnTarget`. -/
def trackOnTarget : Track :=
  { id := "on", name := "On", popularity := some 40,
    features := some featuresOnTarget, extractedGenres := [] }

/-- A track identical to `trackOnTarget` except for its energy. -/
def trackOffTarget : Track :=
  { id := "off", name := "Off", popularity := some 40,
    features := some featuresOffTarget, extractedGenres := [] }

/-- The liked-songs copy of a duplicated track id. -/
def dupLikedTrack : Track :=
  { id := "x", name := "From liked songs", popularity := some 10,
    features := none, extractedGenres := [] }

/-- The playlist copy of the same track id, with different data. -/
def dupPlaylistTrack : Track :=
  { id := "x", name := "From playlist", popularity := some 99,
    features := none, extractedGenres := [] }

/-- A source selection using liked songs and one named playlist. -/
def dupSources : PlaylistSources :=
  { useLikedSongs := true, useTopTracks := false, useRecommendations := false,
    playlists := ["p1"] }

/-- A 101-character description, used to exercise the truncation guard. -/
def longDescription : String :=
  String.mk (List.replicate 101 'x')

/-- An LLM output carrying only an over-long description. -/
def samplePartial : PartialAnalysis :=
  { genres := none, moods := none, energy_range := none, tempo_range := none,
    danceability_range := none, acousticness_range := none,
    instrumentalness_range := none, valence_range := none,
    description := some longDescription, filter_logic := none,
    popularity_level := none }

/-- A stored progress entry: standard mode, progress 25, started at time 0. -/
def sampleStored : StoredProgress :=
  { stage := "collecting", progress := 25, message := "Collecting...",
    remainingTimeEstimate := 60, processingMode := "standard", startTime := 0 }

/-! Helper lemmas about the stable descending sort. -/

theorem mem_insertDesc {α : Type} (key : α → ℚ) (x y : α) (l : List α) :
    y ∈ insertDesc key x l ↔ y = x ∨ y ∈ l := by
  induction l with
  | nil => simp [insertDesc]
  | cons z zs ih =>
    simp only [insertDesc]
    split
    · simp only [List.mem_cons, ih]
      tauto
    · simp only [List.mem_cons]
      try tauto

theorem mem_sortDesc {α : Type} (key : α → ℚ) (y : α) (l : List α) :
    y ∈ sortDesc key l ↔ y ∈ l := by
  induction l with
  | nil => simp [sortDesc]
  | cons x xs ih => simp [sortDesc, mem_insertDesc, ih]

theorem pairwise_insertDesc {α : Type} (key : α → ℚ) (x : α) (l : List α)
    (h : l.Pairwise (fun a b => key b ≤ key a)) :
    (insertDesc key x l).Pairwise (fun a b => key b ≤ key a) := by
  induction l with
  | nil => simp [insertDesc]
  | cons y ys ih =>
    rcases List.pairwise_cons.mp h with ⟨hy, hys⟩
    simp only [insertDesc]
    split
    · rename_i hlt
      refine List.pairwise_cons.mpr ⟨?_, ih hys⟩
      intro z hz
      rcases (mem_insertDesc key x z ys).mp hz with rfl | hzys
      · exact le_of_lt hlt
      · exact hy z hzys
    · rename_i hnlt
      refine List.pairwise_cons.mpr ⟨?_, h⟩
      intro z hz
      rcases List.mem_cons.mp hz with rfl | hzys
      · exact le_of_not_lt hnlt
      · exact le_trans (hy z hzys) (le_of_not_lt hnlt)

theorem pairwise_sortDesc {α : Type} (key : α → ℚ) (l : List α) :
    (sortDesc key l).Pairwise (fun a b => key b ≤ key a) := by
  induction l with
  | nil => simp [sortDesc]
  | cons x xs ih => exact pairwise_insertDesc key x _ ih

theorem sortDesc_eq_self {α : Type} (key : α → ℚ) (l : List α)
    (h : l.Pairwise (fun a b => key b ≤ key a)) :
    sortDesc key l = l := by
  induction l with
  | nil => rfl
  | cons x xs ih =>
    rcases List.pairwise_cons.mp h with ⟨hx, hxs⟩
    simp only [sortDesc, ih hxs]
    cases xs with
    | nil => rfl
    | cons y ys =>
      simp only [insertDesc]
      rw [if_neg (not_lt.mpr (hx y (by simp)))]

/-- Claim C8 counterexample: with one selected track, a thrown (network-level)
failure of the track-append fetch propagates to the route's outer catch, so
the operation answers 500, not 201, even though the playlist shell was
already created. -/
theorem c8_thrown_append_gives_500 :
    (finalizeGeneration "p1" [sampleTrack] FetchOutcome.thrown true).status = 500 ∧
    (finalizeGeneration "p1" [sampleTrack] FetchOutcome.thrown true).status ≠ 201 := by
  exact ⟨rfl, by decide⟩

/-- Claim C8 (amended): once the playlist shell is created, a track-append
HTTP failure response (non-ok status whose error body parses, or any ok
response) does not fail the operation: the route still answers 201 with the
created playlist, independently of the database-save outcome; and when zero
tracks were selected the append is skipped and the playlist is still
delivered empty with 201.  (A thrown append fetch, by contrast, reaches the
outer catch and answers 500.) -/
theorem c8_append_failure_tolerance :
    (∀ (pid : String) (ts : List Track) (r : AddTracksResponse) (db : Bool),
        r.ok = true ∨ r.errorBodyParses = true →
        finalizeGeneration pid ts (.resp r) db =
          { status := 201, playlistId := pid, trackIds := ts.map (fun t => t.id) }) ∧
    (∀ (pid : String) (addR : FetchOutcome AddTracksResponse) (db : Bool),
        finalizeGeneration pid [] addR db =
          { status := 201, playlistId := pid, trackIds := [] }) := by
  constructor
  · intro pid ts r db h
    rcases h with h | h <;> simp [finalizeGeneration, h]
  · intro pid addR db
    simp [finalizeGeneration]

/-- Witness for C8: a concrete non-ok append response with a parseable error
body still yields a 201 with the created playlist. -/
theorem c8_append_failure_tolerance_witness :
    finalizeGeneration "p1" [sampleTrack]
        (.resp { ok := false, errorBodyParses := true }) true =
      { status := 201, playlistId := "p1", trackIds := ["t1"] } :=
  c8_append_failure_tolerance.1 "p1" [sampleTrack]
    { ok := false, errorBodyParses := true } true (Or.inr rfl)

/-- Claim C7: the progress read is a total function; an unknown key yields
the synthetic initializing default, a well-formed object with progress 5 in
the range 0–100; a known key yields a remaining-time estimate equal to
`max(0, modeTotalEstimate - elapsedSeconds)`, floored at 80% of the total
while the recorded progress is below 20. -/
theorem c7_progress_read_total :
    ∀ (store : List (String × StoredProgress)) (key : String) (now : ℚ),
      (store.find? (fun p => p.1 == key) = none →
        readProgress store key now =
          { stage := "initializing", progress := 5,
            message := "Initializing playlist generation...",
            remainingTimeEstimate := 60 } ∧
        0 ≤ (readProgress store key now).progress ∧
        (readProgress store key now).progress ≤ 100) ∧
      (∀ e, store.find? (fun p => p.1 == key) = some e →
        (readProgress store key now).remainingTimeEstimate =
          (if e.2.progress < 20 then
            max (max 0 (getEstimatedTimeForMode e.2.processingMode - (now - e.2.startTime) / 1000))
              (getEstimatedTimeForMode e.2.processingMode * 0.8)
          else
            max 0 (getEstimatedTimeForMode e.2.processingMode - (now - e.2.startTime) / 1000))) := by
  intro store key now
  constructor
  · intro h
    refine ⟨?_, ?_, ?_⟩ <;> norm_num [readProgress, h]
  · intro e h
    simp [readProgress, h]

/-- Witness for C7: reading a known key (standard mode, progress 25, started
at time 0, read at 1000 ms) yields a remaining estimate of 60 - 1 = 59. -/
theorem c7_progress_read_total_witness :
    (readProgress [("p1", sampleStored)] "p1" 1000).remainingTimeEstimate = 59 := by
  rw [(c7_progress_read_total [("p1", sampleStored)] "p1" 1000).2 ("p1", sampleStored) rfl]
  norm_num [sampleStored, show getEstimatedTimeForMode "standard" = 60 from rfl]

/-- Claim C6: `analyzePlaylistPrompt` returns the fixed default analysis on
any failure of the LLM call; on success each missing field is backfilled from
the same defaults (the LLM output wins per field when present), and the
description is kept as produced when within 100 characters, or hard-truncated
to 97 characters plus an ellipsis (total length 100) when the model
overruns. -/
theorem c6_analyze_prompt_defaults :
    (∀ e, analyzePlaylistPrompt (.error e) = defaultAnalysis) ∧
    (∀ p : PartialAnalysis,
      (analyzePlaylistPrompt (.ok p)).genres = p.genres.getD defaultAnalysis.genres ∧
      (analyzePlaylistPrompt (.ok p)).moods = p.moods.getD defaultAnalysis.moods ∧
      (analyzePlaylistPrompt (.ok p)).energy_range = p.energy_range.getD defaultAnalysis.energy_range ∧
      (analyzePlaylistPrompt (.ok p)).tempo_range = p.tempo_range.getD defaultAnalysis.tempo_range ∧
      (analyzePlaylistPrompt (.ok p)).danceability_range = p.danceability_range.getD defaultAnalysis.danceability_range ∧
      (analyzePlaylistPrompt (.ok p)).acousticness_range = p.acousticness_range.getD defaultAnalysis.acousticness_range ∧
      (analyzePlaylistPrompt (.ok p)).instrumentalness_range = p.instrumentalness_range.getD defaultAnalysis.instrumentalness_range ∧
      (analyzePlaylistPrompt (.ok p)).valence_range = p.valence_range.getD defaultAnalysis.valence_range ∧
      (analyzePlaylistPrompt (.ok p)).filter_logic = p.filter_logic.getD defaultAnalysis.filter_logic ∧
      (analyzePlaylistPrompt (.ok p)).popularity_level = p.popularity_level.getD defaultAnalysis.popularity_level) ∧
    (∀ p : PartialAnalysis, p.description = none →
      (analyzePlaylistPrompt (.ok p)).description = defaultAnalysis.description) ∧
    (∀ (p : PartialAnalysis) (d : String), p.description = some d → d.length ≤ 100 →
      (analyzePlaylistPrompt (.ok p)).description = d) ∧
    (∀ (p : PartialAnalysis) (d : String), p.description = some d → d.length > 100 →
      (analyzePlaylistPrompt (.ok p)).description = jsSubstring d 97 ++ "..." ∧
      (analyzePlaylistPrompt (.ok p)).description.length = 100) := by
  refine ⟨fun e => rfl, fun p => ?_, fun p h => ?_, fun p d h hle => ?_,
    fun p d h hgt => ?_⟩
  · exact ⟨rfl, rfl, rfl, rfl, rfl, rfl, rfl, rfl, rfl, rfl⟩
  · simp [analyzePlaylistPrompt, h]
  · have hnot : ¬ (d.length > 100) := by omega
    simp [analyzePlaylistPrompt, h, truncateDescription, hnot]
  · have h1 : (analyzePlaylistPrompt (.ok p)).description = jsSubstring d 97 ++ "..." := by
      simp [analyzePlaylistPrompt, h, truncateDescription, hgt]
    refine ⟨h1, ?_⟩
    rw [h1, String.length_append]
    have h2 : (jsSubstring d 97).length = (d.data.take 97).length := rfl
    have h3 : d.data.length = d.length := rfl
    have h4 : (jsSubstring d 97).length = 97 := by
      rw [h2, List.length_take]
      omega
    rw [h4, show ("..." : String).length = 3 from rfl]

/-- Witness for C6: a 101-character description is truncated to exactly 100
characters. -/
theorem c6_analyze_prompt_defaults_witness :
    samplePartial.description = some longDescription ∧
    longDescription.length > 100 ∧
    (analyzePlaylistPrompt (.ok samplePartial)).description.length = 100 :=
  ⟨rfl, by decide,
    (c6_analyze_prompt_defaults.2.2.2.2 samplePartial longDescription rfl (by decide)).2⟩

/-! Helper lemmas about the time estimator. -/

theorem foldl_add_map_sum {α : Type} (f : α → ℕ) (l : List α) (n : ℕ) :
    l.foldl (fun acc x => acc + f x) n = n + (l.map f).sum := by
  induction l generalizing n with
  | nil => simp
  | cons x xs ih =>
    simp only [List.foldl_cons, List.map_cons, List.sum_cons, ih]
    omega

theorem tracksToProcess_eq_spec (config : ProcessingConfig)
    (playlistSizes : String → Option ℕ) (pid : String) :
    tracksToProcess config (playlistSizeOrDefault playlistSizes pid) =
      specPlaylistTrackCount config playlistSizes pid := by
  by_cases hc : config.maxTracksPerPlaylist = 0 <;>
    simp [tracksToProcess, specPlaylistTrackCount, hc]

theorem totalEstimatedTracks_eq (config : ProcessingConfig)
    (playlistSizes : String → Option ℕ) (l : List String) :
    totalEstimatedTracks config playlistSizes l =
      (l.map (specPlaylistTrackCount config playlistSizes)).sum := by
  unfold totalEstimatedTracks
  rw [foldl_add_map_sum]
  simp only [tracksToProcess_eq_spec, Nat.zero_add]

theorem playlistTimePart_nonneg (config : ProcessingConfig)
    (playlistSizes : String → Option ℕ) (l : List String) :
    0 ≤ playlistTimePart config playlistSizes l := by
  unfold playlistTimePart
  split
  · split <;> positivity
  · exact le_refl 0

theorem playlistTimePart_append_le (config : ProcessingConfig)
    (playlistSizes : String → Option ℕ) (l : List String) (p : String) :
    playlistTimePart config playlistSizes l ≤
      playlistTimePart config playlistSizes (l ++ [p]) := by
  by_cases hl : l.isEmpty
  · have hnil : l = [] := List.isEmpty_iff.mp hl
    rw [hnil]
    have h0 : playlistTimePart config playlistSizes [] = 0 := by
      simp [playlistTimePart]
    rw [List.nil_append, h0]
    exact playlistTimePart_nonneg config playlistSizes [p]
  · have hl2 : ¬ (l ++ [p]).isEmpty := by
      simp [List.isEmpty_iff] at hl ⊢
    have ht : (totalEstimatedTracks config playlistSizes l : ℚ) ≤
        (totalEstimatedTracks config playlistSizes (l ++ [p]) : ℚ) := by
      have hNat : totalEstimatedTracks config playlistSizes l ≤
          totalEstimatedTracks config playlistSizes (l ++ [p]) := by
        rw [totalEstimatedTracks_eq, totalEstimatedTracks_eq, List.map_append,
          List.sum_append]
        exact Nat.le_add_right _ _
      exact_mod_cast hNat
    unfold playlistTimePart
    rw [if_pos hl, if_pos hl2]
    split_ifs with hf
    · linarith
    · linarith

/-- Claim C5: `estimateProcessingTime` is a pure function equal, for every
source selection, mode and known-size map, to the closed-form estimate of
the spec: `ceil` of base 5s + per-source costs (5/3/5) + per-playlist
`min(knownSize or 50, cap-or-size) * 0.05` + pagination 2s per 100 tracks
when `fetchAllPages` + `min(targetPoolSize, 500) * 0.02` when
`useAudioFeatures`, with warning level low/medium/high at the ≤60s / ≤180s
boundaries of the un-ceiled sum. -/
theorem c5_estimate_matches_spec :
    ∀ (sources : PlaylistSources) (mode : ProcessingMode)
      (playlistSizes : String → Option ℕ),
      estimateProcessingTime sources mode playlistSizes =
        specEstimate sources mode playlistSizes := by
  intro s m sizes
  have hsum : estimateSum s m sizes = specEstimateSum s m sizes := by
    simp only [estimateSum, specEstimateSum, playlistTimePart, totalEstimatedTracks_eq]
    by_cases hE : s.playlists.isEmpty
    · have hnil : s.playlists = [] := List.isEmpty_iff.mp hE
      simp [hnil]
      try ring
    · simp [hE]
      try ring
  have hwarn : (if specEstimateSum s m sizes > 180 then WarningLevel.high
      else if specEstimateSum s m sizes > 60 then WarningLevel.medium
      else WarningLevel.low) =
      (if specEstimateSum s m sizes ≤ 60 then WarningLevel.low
      else if specEstimateSum s m sizes ≤ 180 then WarningLevel.medium
      else WarningLevel.high) := by
    split_ifs <;> first | rfl | (exfalso; linarith)
  simp only [estimateProcessingTime, specEstimate]
  rw [hsum, hwarn]

/-- Claim C9: for every mode and size map, the estimate is deterministic (it
is a function) and monotonically non-decreasing in the source selection:
enabling the liked-songs, top-tracks or recommendations flag, or appending a
playlist to the selection, never decreases `estimatedSeconds`. -/
theorem c9_estimate_monotone :
    ∀ (s : PlaylistSources) (mode : ProcessingMode)
      (playlistSizes : String → Option ℕ),
      (estimateProcessingTime { s with useLikedSongs := false } mode playlistSizes).estimatedSeconds ≤
        (estimateProcessingTime { s with useLikedSongs := true } mode playlistSizes).estimatedSeconds ∧
      (estimateProcessingTime { s with useTopTracks := false } mode playlistSizes).estimatedSeconds ≤
        (estimateProcessingTime { s with useTopTracks := true } mode playlistSizes).estimatedSeconds ∧
      (estimateProcessingTime { s with useRecommendations := false } mode playlistSizes).estimatedSeconds ≤
        (estimateProcessingTime { s with useRecommendations := true } mode playlistSizes).estimatedSeconds ∧
      (∀ p : String,
        (estimateProcessingTime s mode playlistSizes).estimatedSeconds ≤
          (estimateProcessingTime { s with playlists := s.playlists ++ [p] } mode playlistSizes).estimatedSeconds) := by
  intro s m sizes
  refine ⟨?_, ?_, ?_, ?_⟩
  · apply Int.ceil_le_ceil
    simp only [estimateSum]
    simp
  · apply Int.ceil_le_ceil
    simp only [estimateSum]
    simp
  · apply Int.ceil_le_ceil
    simp only [estimateSum]
    simp
  · intro p
    apply Int.ceil_le_ceil
    simp only [estimateSum]
    simp
    linarith [playlistTimePart_append_le (PROCESSING_CONFIGS m) sizes s.playlists p]

/-- Claim C10: the collector's returned pool does not depend on the
`useRecommendations` flag (the recommendations source is never fetched by the
generation pipeline — `collectTracks` reads only the other three sources),
even though `estimateProcessingTime` charges exactly 5 extra seconds when the
flag is selected. -/
theorem c10_recommendations_never_fetched :
    (∀ (s : PlaylistSources) (mode : ProcessingMode)
        (likedSongs topTracks : List Track) (playlistTracks : List (List Track)),
      collectTracks { s with useRecommendations := true } mode likedSongs
          topTracks playlistTracks =
        collectTracks { s with useRecommendations := false } mode likedSongs
          topTracks playlistTracks) ∧
    (∀ (s : PlaylistSources) (mode : ProcessingMode)
        (playlistSizes : String → Option ℕ),
      (estimateProcessingTime { s with useRecommendations := true } mode playlistSizes).estimatedSeconds =
        (estimateProcessingTime { s with useRecommendations := false } mode playlistSizes).estimatedSeconds + 5) := by
  constructor
  · intro s mode l t p
    rfl
  · intro s mode sizes
    have h : estimateSum { s with useRecommendations := true } mode sizes =
        estimateSum { s with useRecommendations := false } mode sizes + 5 := by
      simp only [estimateSum]
      simp
      try ring
    show (⌈estimateSum { s with useRecommendations := true } mode sizes⌉ : ℤ) =
      ⌈estimateSum { s with useRecommendations := false } mode sizes⌉ + 5
    rw [h, show ((5 : ℚ)) = ((5 : ℤ) : ℚ) by norm_num, Int.ceil_add_int]

/-! Helper lemmas for the scorer claims (C1, C3). -/

theorem genreScore_of_empty (a : Analysis) (hg : a.genres = []) (g : List String) :
    genreScore a g = 0 := by
  simp [genreScore, hg]

theorem trackScore_mono_of_no_features (a : Analysis) (hg : a.genres = [])
    (t1 t2 : Track) (h1 : t1.features = none) (h2 : t2.features = none)
    (hle : popOrZero t2 ≤ popOrZero t1) :
    trackScore a t2 ≤ trackScore a t1 := by
  simp only [trackScore, h1, h2, genreScore_of_empty a hg]
  by_cases hb2 : popOrZero t2 > 70
  · have hb1 : popOrZero t1 > 70 := lt_of_lt_of_le hb2 hle
    simp [hb1, hb2]
    linarith
  · by_cases hb1 : popOrZero t1 > 70
    · simp [hb1, hb2]
      linarith
    · simp [hb1, hb2]
      linarith

/-- Claim C1 (amended): when no input track has features AND the analysis
carries no genres (so the genre bonus cannot apply), `filterTracksByAIAnalysis`
is total and returns exactly the pool stably sorted by popularity descending,
truncated to `maxTracks`, with no feature-based scoring. -/
theorem c1_no_features_popularity_fallback :
    ∀ (tracks : List Track) (analysis : Analysis) (maxTracks : ℕ),
      (∀ t ∈ tracks, t.features = none) →
      analysis.genres = [] →
      filterTracksByAIAnalysis tracks analysis maxTracks =
        (sortDesc popOrZero tracks).take maxTracks := by
  intro tracks a m hnf hg
  have hfilterSome : tracks.filter (fun t => t.features.isSome) = [] := by
    rw [List.filter_eq_nil_iff]
    intro t ht
    simp [hnf t ht]
  have hfilterNone : tracks.filter (fun t => t.features.isNone) = tracks := by
    rw [List.filter_eq_self]
    intro t ht
    simp [hnf t ht]
  simp only [filterTracksByAIAnalysis, hfilterSome, hfilterNone]
  by_cases hm : m = 0
  · subst hm
    simp
  · have hcond : ([] : List Track).length < m * 2 := by
      simp
      omega
    rw [if_pos hcond]
    simp only [List.nil_append]
    have hsorted : ((sortDesc popOrZero tracks).take (m * 3)).Pairwise
        (fun x y => popOrZero y ≤ popOrZero x) :=
      (pairwise_sortDesc popOrZero tracks).sublist (List.take_sublist _ _)
    have hscored : ((sortDesc popOrZero tracks).take (m * 3)).Pairwise
        (fun x y => trackScore a y ≤ trackScore a x) := by
      refine hsorted.imp_of_mem ?_
      intro x y hx hy hle
      have hxt : x ∈ tracks :=
        (mem_sortDesc popOrZero x tracks).mp (List.mem_of_mem_take hx)
      have hyt : y ∈ tracks :=
        (mem_sortDesc popOrZero y tracks).mp (List.mem_of_mem_take hy)
      exact trackScore_mono_of_no_features a hg x y (hnf x hxt) (hnf y hyt) hle
    rw [sortDesc_eq_self _ _ hscored, List.take_take, Nat.min_eq_left (by omega)]

/-! Concrete evaluations used by the C1 counterexample. -/

theorem lowerStr_rock : lowerStr "rock" = "rock" := by decide

theorem contains_rock : (["rock"] : List String).contains "rock" = true := by decide

theorem trackScore_rockAnalysis_trackRock : trackScore rockAnalysis trackRock = 8 := by
  norm_num [trackScore, popOrZero, trackRock, genreScore, rockAnalysis, defaultAnalysis,
    exactGenrePoints, lowerStr_rock, contains_rock]

theorem trackScore_rockAnalysis_trackNoGenre : trackScore rockAnalysis trackNoGenre = 6 := by
  norm_num [trackScore, popOrZero, trackNoGenre, genreScore, rockAnalysis, defaultAnalysis,
    exactGenrePoints, partialGenrePoints, lowerStr_rock]

theorem c1_scored_eval :
    filterTracksByAIAnalysis [trackNoGenre, trackRock] rockAnalysis 1 = [trackRock] := by
  have hfs : ([trackNoGenre, trackRock] : List Track).filter
      (fun t => t.features.isSome) = [] := by
    decide
  have hfn : ([trackNoGenre, trackRock] : List Track).filter
      (fun t => t.features.isNone) = [trackNoGenre, trackRock] := by
    decide
  have hpop : sortDesc popOrZero [trackNoGenre, trackRock] = [trackNoGenre, trackRock] := by
    norm_num [sortDesc, insertDesc, popOrZero, trackNoGenre, trackRock]
  have hsc : sortDesc (trackScore rockAnalysis) [trackNoGenre, trackRock] =
      [trackRock, trackNoGenre] := by
    norm_num [sortDesc, insertDesc, trackScore_rockAnalysis_trackRock,
      trackScore_rockAnalysis_trackNoGenre]
  simp only [filterTracksByAIAnalysis, hfs, hfn]
  norm_num [hpop, hsc]

theorem c1_popularity_eval :
    (sortDesc popOrZero [trackNoGenre, trackRock]).take 1 = [trackNoGenre] := by
  norm_num [sortDesc, insertDesc, popOrZero, trackNoGenre, trackRock]

/-- Claim C1 counterexample: in a pool where no track has features, a
lower-popularity track that matches the analysis genres (popularity 50,
genre rock, score 5 + 3 = 8) outranks a higher-popularity track without
genre data (popularity 60, score 6), so the output of
`filterTracksByAIAnalysis` is not the pool sorted by popularity descending
and truncated — the genre bonus still applies on this path. -/
theorem c1_genre_bonus_breaks_popularity_fallback :
    trackNoGenre.features = none ∧ trackRock.features = none ∧
    filterTracksByAIAnalysis [trackNoGenre, trackRock] rockAnalysis 1 ≠
      (sortDesc popOrZero [trackNoGenre, trackRock]).take 1 := by
  refine ⟨rfl, rfl, ?_⟩
  rw [c1_scored_eval, c1_popularity_eval]
  intro hcontra
  exact absurd (congrArg (List.map Track.id) hcontra) (by decide)

/-- Witness for C1: a concrete two-track feature-less pool under the
genre-free default analysis is returned in popularity order. -/
theorem c1_no_features_popularity_fallback_witness :
    trackNoGenre.features = none ∧ trackRock.features = none ∧
    defaultAnalysis.genres = [] ∧
    filterTracksByAIAnalysis [trackNoGenre, trackRock] defaultAnalysis 1 =
      (sortDesc popOrZero [trackNoGenre, trackRock]).take 1 :=
  ⟨rfl, rfl, rfl,
    c1_no_features_popularity_fallback [trackNoGenre, trackRock] defaultAnalysis 1
      (by decide) rfl⟩

/-- Claim C3: (1) with an "energy" keyword in `filter_logic`, of two tracks
whose features agree except in energy (same popularity and genres), the one
whose energy is closer to the midpoint of `energy_range` scores strictly
higher; (2) the scorer's weighted feature sum equals the spec's weight table:
emphasis keyword chosen in the priority order energy, tempo/bpm, dance,
acoustic, instrument, valence/happ, the emphasized dimension ×3, its
designated secondary ×1.5, all others ×1, and ×1 everywhere with no match. -/
theorem c3_energy_emphasis_and_weights :
    (∀ (a : Analysis) (t1 t2 : Track) (f1 f2 : AudioFeatures),
      strIncludes (lowerStr a.filter_logic) "energy" = true →
      t1.features = some f1 → t2.features = some f2 →
      f1.tempo = f2.tempo → f1.danceability = f2.danceability →
      f1.acousticness = f2.acousticness → f1.instrumentalness = f2.instrumentalness →
      f1.valence = f2.valence → t1.popularity = t2.popularity →
      t1.extractedGenres = t2.extractedGenres →
      |f1.energy - midpoint a.energy_range| < |f2.energy - midpoint a.energy_range| →
      trackScore a t2 < trackScore a t1) ∧
    (∀ (a : Analysis) (f : AudioFeatures),
      featureScore a f =
        (specEmphasisWeights a.filter_logic).energy * energyScore a f.energy +
        (specEmphasisWeights a.filter_logic).tempo * tempoScore a f.tempo +
        (specEmphasisWeights a.filter_logic).dance * danceabilityScore a f.danceability +
        (specEmphasisWeights a.filter_logic).acoustic * acousticnessScore a f.acousticness +
        (specEmphasisWeights a.filter_logic).instrumental * instrumentalnessScore a f.instrumentalness +
        (specEmphasisWeights a.filter_logic).valence * valenceScore a f.valence) := by
  constructor
  · intro a t1 t2 f1 f2 hE h1 h2 ht hd hac hi hv hpop hgen hlt
    have hfs : featureScore a f2 < featureScore a f1 := by
      simp only [featureScore, hE, if_true, ht, hd, hac, hi, hv]
      have : energyScore a f2.energy < energyScore a f1.energy := by
        simp only [energyScore]
        linarith
      linarith
    simp only [trackScore, h1, h2, popOrZero, hpop, hgen]
    simp
    linarith
  · intro a f
    simp only [featureScore, specEmphasisWeights]
    split_ifs <;> (simp only []; ring)

/-- Witness for C3: with `filter_logic = "prioritize high energy"` and
`energy_range = (0.4, 0.8)`, a track at energy 0.1 scores strictly below an
otherwise-identical track at the 0.6 midpoint. -/
theorem c3_energy_emphasis_and_weights_witness :
    strIncludes (lowerStr energyAnalysis.filter_logic) "energy" = true ∧
    trackScore energyAnalysis trackOffTarget < trackScore energyAnalysis trackOnTarget :=
  ⟨by decide,
    c3_energy_emphasis_and_weights.1 energyAnalysis trackOnTarget trackOffTarget
      featuresOnTarget featuresOffTarget (by decide) rfl rfl rfl rfl rfl rfl rfl rfl rfl
      (by norm_num [energyAnalysis, defaultAnalysis, featuresOnTarget,
        featuresOffTarget, midpoint])⟩

/-- Claim C4: `matchGenresToAvailableSeeds` returns `[]` on an empty AI-genre
list; when at least one exact (case-insensitive) match exists it returns
exactly the exact matches mapped back to original casing; only with zero
exact matches does it return the substring matches (either direction),
deduplicated, truncated to 5; in particular `["rock"]` against
`["rock","pop"]` gives `["rock"]`, `["synth"]` against `["synthpop"]` gives
`["synthpop"]`, and (case-insensitivity) `["ROCK"]` against `["Rock","pop"]`
gives `["Rock"]`. -/
theorem c4_match_genres_exact_then_substring :
    (∀ availableGenres : List String, matchGenresToAvailableSeeds [] availableGenres = []) ∧
    (∀ aiGenres availableGenres : List String,
      exactGenreMatches aiGenres availableGenres ≠ [] →
      matchGenresToAvailableSeeds aiGenres availableGenres =
        (exactGenreMatches aiGenres availableGenres).map
          (fun m => availableGenres.getD ((availableGenres.map lowerStr).indexOf m) "")) ∧
    (∀ aiGenres availableGenres : List String,
      aiGenres ≠ [] →
      exactGenreMatches aiGenres availableGenres = [] →
      matchGenresToAvailableSeeds aiGenres availableGenres =
        (jsSetDedup (partialGenreMatches aiGenres availableGenres)).take 5) ∧
    matchGenresToAvailableSeeds ["rock"] ["rock", "pop"] = ["rock"] ∧
    matchGenresToAvailableSeeds ["synth"] ["synthpop"] = ["synthpop"] ∧
    matchGenresToAvailableSeeds ["ROCK"] ["Rock", "pop"] = ["Rock"] := by
  refine ⟨fun avail => rfl, ?_, ?_, by decide, by decide, by decide⟩
  · intro ai avail h
    have hai : ¬ ai.isEmpty := by
      intro hempty
      apply h
      have hnil : ai = [] := List.isEmpty_iff.mp hempty
      simp [exactGenreMatches, hnil]
    have h2 : ¬ (exactGenreMatches ai avail).isEmpty := by
      simp [List.isEmpty_iff, h]
    simp [matchGenresToAvailableSeeds, hai, h2]
  · intro ai avail hne h
    have hai : ¬ ai.isEmpty := by
      simp [List.isEmpty_iff, hne]
    have h2 : (exactGenreMatches ai avail).isEmpty := by
      simp [List.isEmpty_iff, h]
    simp [matchGenresToAvailableSeeds, hai, h2, h]

/-! Association-list model of the JavaScript Map used for deduplication (C2). -/

theorem lookupK_cons (k0 : String) (v : Track) (tl : List (String × Track)) (k : String) :
    lookupK ((k0, v) :: tl) k = if k0 = k then some v else lookupK tl k := by
  by_cases h : k0 = k
  · have hb : (k0 == k) = true := by simp [h]
    simp [lookupK, List.find?, hb, h]
  · have hb : (k0 == k) = false := by simp [h]
    simp [lookupK, List.find?, hb, h]

theorem lookupK_insert (m : List (String × Track)) (t : Track) (k : String) :
    lookupK (jsMapDedupInsert m t) k = if t.id = k then some t else lookupK m k := by
  induction m with
  | nil =>
    rw [show jsMapDedupInsert [] t = [(t.id, t)] from rfl, lookupK_cons]
  | cons hd tl ih =>
    obtain ⟨k0, v⟩ := hd
    simp only [jsMapDedupInsert]
    by_cases h0 : k0 = t.id
    · rw [if_pos h0, lookupK_cons, lookupK_cons]
      subst h0
      by_cases hk : t.id = k <;> simp [hk]
    · rw [if_neg h0, lookupK_cons, lookupK_cons, ih]
      by_cases hk0 : k0 = k
      · by_cases hk : t.id = k
        · exact absurd (hk0.trans hk.symm) h0
        · simp [hk0, hk]
      · by_cases hk : t.id = k <;> simp [hk0, hk]

theorem lookupK_foldl (l : List Track) (m : List (String × Track)) (k : String) :
    lookupK (l.foldl jsMapDedupInsert m) k =
      match lastMatch? l k with
      | some u => some u
      | none => lookupK m k := by
  induction l generalizing m with
  | nil => simp [lastMatch?]
  | cons t ts ih =>
    simp only [List.foldl_cons, lastMatch?]
    rw [ih]
    cases hlm : lastMatch? ts k with
    | some u => simp
    | none =>
      simp only []
      rw [lookupK_insert]
      by_cases h : t.id = k <;> simp [h]



theorem insert_keyConsistent (m : List (String × Track)) (t : Track)
    (h : ∀ p ∈ m, (p.2).id = p.1) :
    ∀ p ∈ jsMapDedupInsert m t, (p.2).id = p.1 := by
  induction m with
  | nil =>
    intro p hp
    simp [jsMapDedupInsert] at hp
    subst hp
    rfl
  | cons hd tl ih =>
    obtain ⟨k0, v⟩ := hd
    intro p hp
    simp only [jsMapDedupInsert] at hp
    by_cases h0 : k0 = t.id
    · rw [if_pos h0] at hp
      rcases List.mem_cons.mp hp with rfl | hp2
      · simpa using h0.symm
      · exact h p (List.mem_cons_of_mem _ hp2)
    · rw [if_neg h0] at hp
      rcases List.mem_cons.mp hp with rfl | hp2
      · exact h _ (List.mem_cons_self _ _)
      · exact ih (fun q hq => h q (List.mem_cons_of_mem _ hq)) p hp2

theorem mem_keys_insert (m : List (String × Track)) (t : Track) (x : String)
    (hx : x ∈ (jsMapDedupInsert m t).map Prod.fst) :
    x ∈ m.map Prod.fst ∨ x = t.id := by
  induction m with
  | nil =>
    simp [jsMapDedupInsert] at hx
    exact Or.inr hx
  | cons hd tl ih =>
    obtain ⟨k0, v⟩ := hd
    simp only [jsMapDedupInsert] at hx
    by_cases h0 : k0 = t.id
    · rw [if_pos h0] at hx
      simp only [List.map_cons, List.mem_cons] at hx ⊢
      tauto
    · rw [if_neg h0] at hx
      simp only [List.map_cons, List.mem_cons] at hx ⊢
      rcases hx with rfl | hx2
      · tauto
      · rcases ih hx2 with h | h <;> tauto

theorem keys_nodup_insert (m : List (String × Track)) (t : Track)
    (h : (m.map Prod.fst).Nodup) :
    ((jsMapDedupInsert m t).map Prod.fst).Nodup := by
  induction m with
  | nil => simp [jsMapDedupInsert]
  | cons hd tl ih =>
    obtain ⟨k0, v⟩ := hd
    simp only [List.map_cons, List.nodup_cons] at h
    simp only [jsMapDedupInsert]
    by_cases h0 : k0 = t.id
    · rw [if_pos h0]
      simp only [List.map_cons, List.nodup_cons]
      exact h
    · rw [if_neg h0]
      simp only [List.map_cons, List.nodup_cons]
      refine ⟨?_, ih h.2⟩
      intro hmem
      rcases mem_keys_insert tl t k0 hmem with hin | heq
      · exact h.1 hin
      · exact h0 heq

theorem foldl_keyConsistent (l : List Track) (m : List (String × Track))
    (h : ∀ p ∈ m, (p.2).id = p.1) :
    ∀ p ∈ l.foldl jsMapDedupInsert m, (p.2).id = p.1 := by
  induction l generalizing m with
  | nil => exact h
  | cons t ts ih =>
    simp only [List.foldl_cons]
    exact ih _ (insert_keyConsistent m t h)

theorem foldl_keys_nodup (l : List Track) (m : List (String × Track))
    (h : (m.map Prod.fst).Nodup) :
    ((l.foldl jsMapDedupInsert m).map Prod.fst).Nodup := by
  induction l generalizing m with
  | nil => exact h
  | cons t ts ih =>
    simp only [List.foldl_cons]
    exact ih _ (keys_nodup_insert m t h)

theorem countP_values (m : List (String × Track)) (k : String)
    (hP : ∀ p ∈ m, (p.2).id = p.1) (hnd : (m.map Prod.fst).Nodup) :
    (m.map Prod.snd).countP (fun t => t.id == k) =
      if k ∈ m.map Prod.fst then 1 else 0 := by
  induction m with
  | nil => simp
  | cons hd tl ih =>
    obtain ⟨k0, v⟩ := hd
    have hv : v.id = k0 := hP _ (List.mem_cons_self _ _)
    simp only [List.map_cons, List.nodup_cons] at hnd
    have ihh := ih (fun q hq => hP q (List.mem_cons_of_mem _ hq)) hnd.2
    simp only [List.map_cons, List.countP_cons, ihh, List.mem_cons]
    by_cases hk : k0 = k
    · have hb : (v.id == k) = true := by simp [hv, hk]
      have hnotin : ¬ k ∈ tl.map Prod.fst := by
        rw [← hk]
        exact hnd.1
      simp [hb, hnotin, hk]
    · have hb : (v.id == k) = false := by simp [hv, hk]
      have hk2 : ¬ k = k0 := fun hcontra => hk hcontra.symm
      by_cases hmem : k ∈ List.map Prod.fst tl
      · simp [hb, hmem]
      · simp [hb, hmem, hk2]

theorem find?_values (m : List (String × Track)) (k : String)
    (hP : ∀ p ∈ m, (p.2).id = p.1) :
    (m.map Prod.snd).find? (fun t => t.id == k) = lookupK m k := by
  induction m with
  | nil => simp [lookupK]
  | cons hd tl ih =>
    obtain ⟨k0, v⟩ := hd
    have hv : v.id = k0 := hP _ (List.mem_cons_self _ _)
    have ihh := ih (fun q hq => hP q (List.mem_cons_of_mem _ hq))
    rw [lookupK_cons]
    by_cases hk : k0 = k
    · have hb : (v.id == k) = true := by simp [hv, hk]
      simp [List.find?, hb, hk]
    · have hb : (v.id == k) = false := by simp [hv, hk]
      simp [List.find?, hb, hk, ihh]

theorem mem_keys_of_lookupK (m : List (String × Track)) (k : String) (v : Track)
    (h : lookupK m k = some v) : k ∈ m.map Prod.fst := by
  induction m with
  | nil => simp [lookupK] at h
  | cons hd tl ih =>
    obtain ⟨k0, w⟩ := hd
    rw [lookupK_cons] at h
    simp only [List.map_cons, List.mem_cons]
    by_cases hk : k0 = k
    · exact Or.inl hk.symm
    · rw [if_neg hk] at h
      exact Or.inr (ih h)

theorem lastMatch?_eq_none_iff (l : List Track) (k : String) :
    lastMatch? l k = none ↔ ∀ t ∈ l, ¬ t.id = k := by
  induction l with
  | nil => simp [lastMatch?]
  | cons t ts ih =>
    constructor
    · intro h q hq
      simp only [lastMatch?] at h
      cases hlm : lastMatch? ts k with
      | some u =>
        rw [hlm] at h
        exact Option.noConfusion h
      | none =>
        rw [hlm] at h
        rcases List.mem_cons.mp hq with rfl | hq2
        · intro hid
          simp [hid] at h
        · exact ih.mp hlm q hq2
    · intro h
      have hts : lastMatch? ts k = none :=
        ih.mpr (fun q hq => h q (List.mem_cons_of_mem _ hq))
      have hhead : ¬ t.id = k := h t (List.mem_cons_self _ _)
      simp [lastMatch?, hts, hhead]

theorem lastMatch?_isSome (l : List Track) (k : String)
    (h : ∃ t ∈ l, t.id = k) : ∃ u, lastMatch? l k = some u := by
  cases hlm : lastMatch? l k with
  | some u => exact ⟨u, rfl⟩
  | none =>
    obtain ⟨t, ht, hid⟩ := h
    exact absurd hid ((lastMatch?_eq_none_iff l k).mp hlm t ht)

theorem dedupById_find? (l : List Track) (k : String) :
    (dedupById l).find? (fun t => t.id == k) = lastMatch? l k := by
  unfold dedupById
  rw [find?_values _ _ (foldl_keyConsistent l [] (by simp))]
  rw [lookupK_foldl]
  cases h : lastMatch? l k <;> simp [lookupK]

theorem dedupById_countP (l : List Track) (k : String)
    (h : ∃ t ∈ l, t.id = k) :
    (dedupById l).countP (fun t => t.id == k) = 1 := by
  unfold dedupById
  rw [countP_values _ _ (foldl_keyConsistent l [] (by simp))
    (foldl_keys_nodup l [] (by simp))]
  obtain ⟨u, hu⟩ := lastMatch?_isSome l k h
  have hlk : lookupK (l.foldl jsMapDedupInsert []) k = some u := by
    rw [lookupK_foldl, hu]
  rw [if_pos (mem_keys_of_lookupK _ _ _ hlk)]



/-- Claim C2 (amended): in the merged multi-source pool, a duplicated track
id appears exactly once after deduplication (provided the deduplicated pool
is within the mode's `targetPoolSize` cap), at the position of its first
occurrence, but the element retained for that id is the LAST occurrence's
data: a later `Map.set` on the same key overwrites the stored value while
keeping the original insertion position. -/
theorem c2_dedup_exactly_once_last_write_wins :
    ∀ (sources : PlaylistSources) (mode : ProcessingMode)
      (likedSongs topTracks : List Track) (playlistTracks : List (List Track))
      (k : String),
      (∃ t ∈ mergedSourceTracks sources likedSongs topTracks playlistTracks, t.id = k) →
      (dedupById (mergedSourceTracks sources likedSongs topTracks playlistTracks)).length ≤
        (PROCESSING_CONFIGS mode).targetPoolSize →
      (collectTracks sources mode likedSongs topTracks playlistTracks).countP
          (fun t => t.id == k) = 1 ∧
      (collectTracks sources mode likedSongs topTracks playlistTracks).find?
          (fun t => t.id == k) =
        lastMatch? (mergedSourceTracks sources likedSongs topTracks playlistTracks) k := by
  intro s mode liked top pls k hmem hcap
  have hcoll : collectTracks s mode liked top pls =
      dedupById (mergedSourceTracks s liked top pls) := by
    unfold collectTracks
    rw [if_neg]
    intro hcontra
    omega
  rw [hcoll]
  exact ⟨dedupById_countP _ _ hmem, dedupById_find? _ _⟩

/-- Claim C2 counterexample: the same id "x" arrives from liked songs first
and from a named playlist second; the collected pool contains it exactly
once, but the retained element is the playlist copy (the later source), not
the first-seen liked-songs data. -/
theorem c2_first_seen_data_not_retained :
    dupLikedTrack.id = "x" ∧ dupPlaylistTrack.id = "x" ∧
    collectTracks dupSources .standard [dupLikedTrack] [] [[dupPlaylistTrack]] =
      [dupPlaylistTrack] ∧
    dupPlaylistTrack.name ≠ dupLikedTrack.name := by
  refine ⟨rfl, rfl, by decide, by decide⟩

/-- Witness for C2: the concrete duplicated pool instantiating the amended
theorem. -/
theorem c2_dedup_exactly_once_last_write_wins_witness :
    dupLikedTrack.id = "x" ∧
    (collectTracks dupSources .standard [dupLikedTrack] [] [[dupPlaylistTrack]]).countP
        (fun t => t.id == "x") = 1 ∧
    (collectTracks dupSources .standard [dupLikedTrack] [] [[dupPlaylistTrack]]).find?
        (fun t => t.id == "x") =
      lastMatch? (mergedSourceTracks dupSources [dupLikedTrack] [] [[dupPlaylistTrack]]) "x" :=
  ⟨rfl,
    c2_dedup_exactly_once_last_write_wins dupSources .standard [dupLikedTrack] [] [[dupPlaylistTrack]] "x"
      (by decide) (by decide)⟩

/-- Witness for C4: the exact-match pass applied to `["rock"]` against
`["rock", "pop"]`. -/
theorem c4_match_genres_exact_then_substring_witness :
    exactGenreMatches ["rock"] ["rock", "pop"] ≠ [] ∧
    matchGenresToAvailableSeeds ["rock"] ["rock", "pop"] =
      (exactGenreMatches ["rock"] ["rock", "pop"]).map
        (fun m => ["rock", "pop"].getD (((["rock", "pop"] : List String).map lowerStr).indexOf m) "") :=
  ⟨by decide, c4_match_genres_exact_then_substring.2.1 ["rock"] ["rock", "pop"] (by decide)⟩

end SP
